import Mathlib

/-!
Verification of the journey aggregation and enrichment engine of
Simple-Go-Schedule (`src/server/routes.ts`), via a shallow embedding.

Modelling conventions:
* JSON string fields that may be absent are `Option String`; JavaScript
  truthiness (`undefined` and `""` are falsy) is `truthyS`, and `x || d` is
  `jsOr` / `jsOrO`.
* `new Date(str).getTime()` is an abstract parameter
  `getTime : String → Option Int`, where `none` models an invalid date
  (`NaN` timestamp).  `NaN` never throws in JavaScript, and any arithmetic
  or comparison on it is absorbing: a delay value of `none` models `NaN`.
* JavaScript `Array.prototype.sort` (stable since ES2019) is modelled by a
  stable insertion sort `jsSort`; for a consistent comparator every stable
  sort produces the same output, which is the only regime in which the
  theorems below rely on the order.
-/

namespace GoSchedule

/-- JavaScript truthiness of a possibly absent string: `undefined` and `""`
are falsy. -/
def truthyS : Option String → Bool
  | some s => s != ""
  | none => false

/-- JavaScript `x || d` where `x` is a possibly absent string and `d` a
string default. -/
def jsOr (x : Option String) (d : String) : String :=
  if truthyS x then x.getD "" else d

/-- JavaScript `x || y` for possibly absent strings, keeping absence. -/
def jsOrO (x y : Option String) : Option String :=
  if truthyS x then x else y

/-- Is `n` a contiguous sublist of the second argument? -/
def infixCheck (n : List Char) : List Char → Bool
  | [] => n.isPrefixOf []
  | c :: t => n.isPrefixOf (c :: t) || infixCheck n t

/-- JavaScript `haystack.includes(needle)` substring test. -/
def containsStr (haystack needle : String) : Bool :=
  infixCheck needle.data haystack.data

/-- Replace the first space by `'T'` in a character list. -/
def replaceCharsSpaceT : List Char → List Char
  | [] => []
  | c :: t => if c = ' ' then 'T' :: t else c :: replaceCharsSpaceT t

/-- JavaScript `s.replace(" ", "T")`: replaces only the first space. -/
def replaceSpaceT (s : String) : String :=
  ⟨replaceCharsSpaceT s.data⟩

/-- Lower-casing (structural; core `String.toLower` does not reduce in the
kernel). -/
def toLowerStr (s : String) : String :=
  ⟨s.data.map Char.toLower⟩

/-- Trim surrounding whitespace, modelling JavaScript `trim()`. -/
def trimStr (s : String) : String :=
  ⟨((s.data.dropWhile Char.isWhitespace).reverse.dropWhile Char.isWhitespace).reverse⟩

/-- JavaScript `s.startsWith(p)`. -/
def startsWithStr (s p : String) : Bool :=
  p.data.isPrefixOf s.data

/-- Fueled splitter on a non-empty separator (the fuel, one more than the
input length, is never exhausted; it only makes the recursion
structural). -/
def splitSepFuel (sep : List Char) : Nat → List Char → List Char → List (List Char)
  | 0, l, cur => [cur.reverse ++ l]
  | fuel + 1, l, cur =>
    match l with
    | [] => [cur.reverse]
    | c :: rest =>
      if sep.isPrefixOf (c :: rest) then
        cur.reverse :: splitSepFuel sep fuel (List.drop sep.length (c :: rest)) []
      else splitSepFuel sep fuel rest (c :: cur)

/-- JavaScript `s.split(sep)` for a non-empty string separator. -/
def splitOnStr (s sep : String) : List String :=
  (splitSepFuel sep.data (s.data.length + 1) s.data []).map (fun l => ⟨l⟩)

/-- `LINE_DESTINATIONS` from `routes.ts` (lines 26-34): each GO line's
ordered station codes. -/
def LINE_DESTINATIONS : List (String × List String) :=
  [("LW", ["AL", "BU", "AP", "BO", "OA", "CL", "PO", "LO", "MI", "EX", "UN", "HA", "WR", "SCTH", "NI"]),
   ("LE", ["OS", "WH", "AJ", "PIN", "RO", "GU", "EG", "SC", "DA", "UN"]),
   ("ML", ["ML", "LS", "ME", "SR", "ER", "CO", "DI", "KP", "UN"]),
   ("GT", ["KI", "GL", "AC", "GE", "MO", "BR", "BE", "MA", "ET", "WE", "BL", "UN"]),
   ("BA", ["BA", "AD", "BD", "EA", "NE", "AU", "KC", "MP", "RU", "DW", "UN"]),
   ("RH", ["RI", "BM", "GO", "LA", "OL", "OR", "UN"]),
   ("ST", ["LI", "ST", "MJ", "MR", "CE", "UI", "MK", "AG", "KE", "UN"])]

/-- `TRAIN_LINE_CODES` from `routes.ts` (line 36). -/
def TRAIN_LINE_CODES : List String :=
  ["LW", "LE", "ML", "GT", "BA", "RH", "ST", "KI"]

/-- `getVehicleType` from `routes.ts` (lines 38-44). -/
def getVehicleType (lineCode lineName : String) : String :=
  if TRAIN_LINE_CODES.contains lineCode then "train"
  else if containsStr (toLowerStr lineName) "bus" then "bus"
  else if containsStr (toLowerStr lineName) "train" then "train"
  else if startsWithStr lineCode "B" || decide (lineCode.length > 2) then "bus"
  else "train"

/-- Lookup in an association table of station-code → value, modelling a JS
object index `tbl[k]` (absent key is `undefined`). -/
def lookupStr (tbl : List (String × String)) (k : String) : Option String :=
  (tbl.find? (fun p => p.1 == k)).map (fun p => p.2)

/-- Lookup of a line's station list, modelling `LINE_DESTINATIONS[code]`. -/
def lookupLine (topo : List (String × List String)) (k : String) : Option (List String) :=
  (topo.find? (fun p => p.1 == k)).map (fun p => p.2)

/-- `getLineForRoute` from `routes.ts` (lines 46-53), parameterised by the
topology table: first line whose station list contains both codes. -/
def getLineForRouteT (topo : List (String × List String)) (origin destination : String) :
    Option String :=
  (topo.find? (fun p => p.2.contains origin && p.2.contains destination)).map (fun p => p.1)

/-- `STATION_NAMES` from `routes.ts` (lines 182-201). -/
def STATION_NAMES : List (String × String) :=
  [("UN", "Union"), ("AL", "Aldershot"), ("BU", "Burlington"), ("AP", "Appleby"),
   ("BO", "Bronte"), ("OA", "Oakville"), ("CL", "Clarkson"), ("PO", "Port Credit"),
   ("LO", "Long Branch"), ("MI", "Mimico"), ("EX", "Exhibition"), ("HA", "Hamilton"),
   ("WR", "West Harbour"), ("NI", "Niagara"), ("OS", "Oshawa"), ("WH", "Whitby"),
   ("AJ", "Ajax"), ("PIN", "Pickering"), ("RO", "Rouge Hill"), ("GU", "Guildwood"),
   ("EG", "Eglinton"), ("SC", "Scarborough"), ("DA", "Danforth"), ("ML", "Milton"),
   ("LS", "Lisgar"), ("ME", "Meadowvale"), ("SR", "Streetsville"), ("ER", "Erindale"),
   ("CO", "Cooksville"), ("DI", "Dixie"), ("KP", "Kipling"), ("KI", "Kitchener"),
   ("GL", "Guelph"), ("AC", "Acton"), ("GE", "Georgetown"), ("MO", "Mount Pleasant"),
   ("BR", "Brampton"), ("BE", "Bramalea"), ("MA", "Malton"), ("ET", "Etobicoke North"),
   ("WE", "Weston"), ("BL", "Bloor"), ("BA", "Barrie South"), ("AD", "Allandale Waterfront"),
   ("BD", "Bradford"), ("EA", "East Gwillimbury"), ("NE", "Newmarket"), ("AU", "Aurora"),
   ("KC", "King City"), ("MP", "Maple"), ("RU", "Rutherford"), ("DW", "Downsview Park"),
   ("RI", "Richmond Hill"), ("BM", "Bloomington"), ("GO", "Gormley"), ("LA", "Langstaff"),
   ("OL", "Old Cummer"), ("OR", "Oriole"), ("LI", "Lincolnville"), ("ST", "Stouffville"),
   ("MJ", "Mount Joy"), ("MR", "Markham"), ("CE", "Centennial"), ("UI", "Unionville"),
   ("MK", "Milliken"), ("AG", "Agincourt"), ("KE", "Kennedy"), ("CF", "Confederation"),
   ("WS", "Whitchurch-Stouffville"), ("SCTH", "St. Catharines")]

/-- One element of the `NextService.Lines` array of the real-time feed
(fields read by `routes.ts`; every field may be absent in the JSON). -/
structure RealTimeLine where
  TripNumber : Option String
  LineCode : Option String
  LineName : Option String
  DirectionName : Option String
  ServiceType : Option String
  ScheduledDepartureTime : Option String
  ComputedDepartureTime : Option String
  DepartureStatus : Option String
  ScheduledPlatform : Option String
  ActualPlatform : Option String
  deriving Repr, DecidableEq

/-- A trip record of the scheduled-journey feed (fields read by
`routes.ts` lines 146-158). -/
structure Trip where
  Number : Option String
  Line : Option String
  Display : Option String
  /-- The upstream `Type` field (renamed: `Type` is a Lean keyword). -/
  TypeCode : Option String
  deriving Repr, DecidableEq

/-- A service record of the scheduled-journey feed.  `tripList` models
`service?.Trips?.Trip` after the source's array normalization
(`Array.isArray(trips) ? trips : [trips]`, absent → `[]`); elements may be
`none` (null), which the source skips via `if (!trip) continue`. -/
structure Service where
  StartTime : Option String
  EndTime : Option String
  tripList : List (Option Trip)
  deriving Repr, DecidableEq

/-- A journey record; `Services` models `journey?.Services || []`. -/
structure Journey where
  Services : List Service
  deriving Repr, DecidableEq

/-- The merged departure record produced by the `/api/journey` handler.
`delay = none` models a `NaN` delay (see `computeDelay`); `tripNumber` is
`none` only for a real-time-only entry whose upstream `TripNumber` was
absent. -/
structure Departure where
  tripNumber : Option String
  departureTime : String
  arrivalTime : String
  platform : Option String
  delay : Option Int
  status : String
  line : String
  vehicleType : String
  source : String
  deriving Repr, DecidableEq

/-- Construction of one `ScheduledDeparture` from `routes.ts` lines
152-169 (the fields pushed onto `scheduleDepartures`). -/
def mkScheduled (sv : Service) (trip : Trip) : Departure :=
  let tripNumber := jsOr trip.Number ""
  let lineCode := jsOr trip.Line ""
  let lineName := jsOr trip.Display lineCode
  let vehicleType :=
    if trip.TypeCode == some "T" then "train"
    else if trip.TypeCode == some "B" then "bus"
    else getVehicleType lineCode lineName
  { tripNumber := some tripNumber
    departureTime := jsOr sv.StartTime ""
    arrivalTime := jsOr sv.EndTime ""
    platform := none
    delay := some 0
    status := "on_time"
    line := if lineName != "" then lineName else "Route " ++ lineCode
    vehicleType := vehicleType
    source := "schedule" }

/-- One step of the schedule parse (`routes.ts` lines 146-170): skip null
trips, dedup by trip number through the `tripNumbers` set, first wins. -/
def schedStep (sv : Service) : (List String × List Departure) → Option Trip →
    (List String × List Departure)
  | acc, none => acc
  | (seen, out), some trip =>
    let tripNumber := jsOr trip.Number ""
    if seen.contains tripNumber then (seen, out)
    else (tripNumber :: seen, out ++ [mkScheduled sv trip])

/-- `scheduleDepartures` from `routes.ts` lines 136-172: the nested
journeys → services → trips loops with set-based dedup. -/
def scheduleDepartures (journeys : List Journey) : List Departure :=
  (journeys.foldl
    (fun acc j => j.Services.foldl
      (fun acc sv => sv.tripList.foldl (schedStep sv) acc) acc)
    ([], [])).2

/-- The terminal part of a direction string:
`dirName.split(" - ").slice(1).join(" - ").trim()` (`routes.ts` line 221). -/
def terminalOf (dirName : String) : String :=
  trimStr (String.intercalate " - " ((splitOnStr dirName " - ").drop 1))

/-- Terminal resolution loop of `routes.ts` lines 235-242: scan the line's
stations, the latest station whose display name occurs in the lowercased
terminal text wins; `none` models the `-1` sentinel. -/
def resolveTerminalIdx (names : List (String × String)) (lineStations : List String)
    (terminalLower : String) : Option Nat :=
  lineStations.enum.foldl
    (fun acc p =>
      if containsStr terminalLower (toLowerStr (jsOr (lookupStr names p.2) p.2)) then some p.1
      else acc)
    none

/-- The `filteredRealTime` predicate of `routes.ts` lines 205-252,
parameterised by the topology tables (the source reads the fixed constants
`LINE_DESTINATIONS` / `STATION_NAMES`). -/
def isToward (topo : List (String × List String)) (names : List (String × String))
    (origin destination : String) (line : RealTimeLine) : Bool :=
  let destName := jsOr (lookupStr names destination) destination
  let dirName := trimStr (jsOr line.DirectionName "")
  let lineCode := trimStr (jsOr line.LineCode "")
  let routeLineCode := getLineForRouteT topo origin destination
  if truthyS routeLineCode && (lineCode != jsOr routeLineCode "") then false
  else if containsStr (toLowerStr dirName) (toLowerStr destName) then true
  else if containsStr (toLowerStr dirName) "union" && destination == "UN" then true
  else if destination == "UN" && containsStr (toLowerStr dirName) "union" then true
  else
    let terminalPart := terminalOf dirName
    if terminalPart == "" then false
    else
      let lineStations := (lookupLine topo lineCode).getD []
      if lineStations.isEmpty then false
      else
        match lineStations.findIdx? (fun s => s == origin),
              lineStations.findIdx? (fun s => s == destination) with
        | some originIdx, some destIdx =>
          match resolveTerminalIdx names lineStations (toLowerStr terminalPart) with
          | none => false
          | some terminalIdx =>
            (decide (originIdx < destIdx) && decide (destIdx ≤ terminalIdx)) ||
            (decide (originIdx > destIdx) && decide (destIdx ≥ terminalIdx))
        | _, _ => false

/-- The delay computation repeated at `routes.ts` lines 276-285, 371-380
and 408-417.  In JavaScript an unparsable timestamp makes `new Date`
produce an Invalid Date (it does not throw, so the `try`/`catch` is inert)
and the subsequent arithmetic gives `Math.round(NaN) = NaN`; `none` models
that `NaN`.  `Math.round(x) = ⌊x + 1/2⌋`, so the exact integer form of
`Math.round((c − s) / 60000)` is `⌊(2(c − s) + 60000) / 120000⌋`. -/
def computeDelay (getTime : String → Option Int) (scheduledTime computedTime : String) :
    Option Int :=
  if scheduledTime != "" && computedTime != "" && scheduledTime != computedTime then
    match getTime (replaceSpaceT scheduledTime), getTime (replaceSpaceT computedTime) with
    | some s, some c => some (Int.fdiv (2 * (c - s) + 60000) 120000)
    | _, _ => none
  else some 0

/-- Delay of a real-time entry, from its two timestamp fields. -/
def rtDelay (getTime : String → Option Int) (rt : RealTimeLine) : Option Int :=
  computeDelay getTime (jsOr rt.ScheduledDepartureTime "") (jsOr rt.ComputedDepartureTime "")

/-- `delayMinutes > 5 || status === "L"`; a `NaN` delay compares false. -/
def rtIsDelayed (getTime : String → Option Int) (rt : RealTimeLine) : Bool :=
  (match rtDelay getTime rt with
   | some d => decide (d > 5)
   | none => false) || jsOr rt.DepartureStatus "" == "L"

/-- Status derived from a real-time entry alone (the `"on_time"` branch of
`routes.ts` line 297). -/
def rtStatus (getTime : String → Option Int) (rt : RealTimeLine) : String :=
  if jsOr rt.DepartureStatus "" == "C" then "cancelled"
  else if rtIsDelayed getTime rt then "delayed"
  else "on_time"

/-- `line.ScheduledPlatform || line.ActualPlatform || undefined`. -/
def rtPlatform (rt : RealTimeLine) : Option String :=
  jsOrO rt.ScheduledPlatform (jsOrO rt.ActualPlatform none)

/-- `enrichWithRealTime` from `routes.ts` lines 370-392. -/
def enrichWithRealTime (getTime : String → Option Int) (dep : Departure)
    (realTime : RealTimeLine) : Departure :=
  let scheduledTime := jsOr realTime.ScheduledDepartureTime ""
  let delayMinutes := rtDelay getTime realTime
  let status := jsOr realTime.DepartureStatus ""
  let isCancelled := status == "C"
  let isDelayed := rtIsDelayed getTime realTime
  { dep with
    departureTime := if scheduledTime != "" then scheduledTime else dep.departureTime
    platform := jsOrO realTime.ScheduledPlatform
      (jsOrO realTime.ActualPlatform (jsOrO dep.platform none))
    delay := delayMinutes
    status := if isCancelled then "cancelled" else if isDelayed then "delayed" else dep.status }

/-- A real-time-only departure appended by `routes.ts` lines 271-301. -/
def mkRealTimeOnly (getTime : String → Option Int) (tripNum : Option String)
    (line : RealTimeLine) : Departure :=
  let lineCode := trimStr (jsOr line.LineCode "")
  let lineName := jsOr line.LineName lineCode
  let vehicleType :=
    if line.ServiceType == some "T" then "train"
    else if line.ServiceType == some "B" then "bus"
    else getVehicleType lineCode lineName
  let scheduledTime := jsOr line.ScheduledDepartureTime ""
  let delayMinutes := rtDelay getTime line
  let status := jsOr line.DepartureStatus ""
  let isCancelled := status == "C"
  let isDelayed := rtIsDelayed getTime line
  let platform := rtPlatform line
  { tripNumber := tripNum
    departureTime := scheduledTime
    arrivalTime := ""
    platform := jsOrO platform none
    delay := delayMinutes
    status := if isCancelled then "cancelled" else if isDelayed then "delayed" else "on_time"
    line := if lineName != "" then lineName else "Route " ++ lineCode
    vehicleType := vehicleType
    source := "realtime" }

/-- Insertion-ordered association list modelling the JS `Map` used for
`realTimeMap`, keyed by the raw (possibly absent) `TripNumber`. -/
abbrev RTMap := List (Option String × RealTimeLine)

/-- JS `Map.set`: update in place when the key exists, else append. -/
def mapSet : RTMap → Option String → RealTimeLine → RTMap
  | [], k, v => [(k, v)]
  | (k', v') :: rest, k, v =>
    if k' == k then (k', v) :: rest else (k', v') :: mapSet rest k v

/-- JS `Map.get`: `none` models `undefined`. -/
def mapGet : RTMap → Option String → Option RealTimeLine
  | [], _ => none
  | (k', v') :: rest, k => if k' == k then some v' else mapGet rest k

/-- JS `Map.delete`. -/
def mapDelete : RTMap → Option String → RTMap
  | [], _ => []
  | (k', v') :: rest, k => if k' == k then rest else (k', v') :: mapDelete rest k

/-- The keys of the map, in insertion order. -/
def mapKeys (m : RTMap) : List (Option String) := m.map (fun p => p.1)

/-- `realTimeMap` build (`routes.ts` lines 255-258): keyed by the raw
`TripNumber` field, last write wins. -/
def realTimeMap (filtered : List RealTimeLine) : RTMap :=
  filtered.foldl (fun m l => mapSet m l.TripNumber l) []

/-- One step of the merge (`routes.ts` lines 261-268): enrich and consume
the map entry on a hit, else pass the scheduled departure through. -/
def mergeStep (getTime : String → Option Int) (acc : List Departure × RTMap)
    (dep : Departure) : List Departure × RTMap :=
  match mapGet acc.2 dep.tripNumber with
  | some rt => (acc.1 ++ [enrichWithRealTime getTime dep rt], mapDelete acc.2 dep.tripNumber)
  | none => (acc.1 ++ [dep], acc.2)

/-- The merged list plus the unconsumed remainder of the real-time map. -/
def mergedAndRest (getTime : String → Option Int) (scheduled : List Departure)
    (m : RTMap) : List Departure × RTMap :=
  scheduled.foldl (mergeStep getTime) ([], m)

/-- Strict comparator of the departures sort (`routes.ts` lines 305-311):
`a` strictly precedes `b` when both timestamps parse and `a`'s is smaller.
V8 treats a `NaN` comparator result as `0`, so any unparsable timestamp
makes the pair compare as equal. -/
def jsLt (getTime : String → Option Int) (a b : Departure) : Bool :=
  match getTime (replaceSpaceT a.departureTime), getTime (replaceSpaceT b.departureTime) with
  | some x, some y => decide (x < y)
  | _, _ => false

/-- Stable insertion of `a`: before the first strictly greater element,
after equal or incomparable ones. -/
def insertD {α : Type _} (lt : α → α → Bool) (a : α) : List α → List α
  | [] => [a]
  | b :: bs => if lt a b then a :: b :: bs else b :: insertD lt a bs

/-- Stable sort modelling `Array.prototype.sort` with comparator `lt`. -/
def jsSort {α : Type _} (lt : α → α → Bool) (l : List α) : List α :=
  l.foldl (fun acc a => insertD lt a acc) []

/-- A normalized service alert (`routes.ts` lines 337-343). -/
structure Alert where
  id : String
  title : String
  description : String
  severity : String
  affectedRoutes : List String
  deriving Repr, DecidableEq

/-- A raw message of the alerts feed.  `AssociatedLines` and `Lines` model
`msg.AssociatedLines?.map(line => line.LineCode || line.Code || line)` and
the analogous `Lines?.map(...)`, already projected to code strings; a
present-but-empty array is truthy in JavaScript and stops the `||` chain,
hence the `Option (List String)` shape. -/
structure AlertMsg where
  AssociatedLines : Option (List String)
  Lines : Option (List String)
  Routes : Option (List String)
  Category : Option String
  SubCategory : Option String
  Priority : Option String
  Code : Option String
  MessageId : Option String
  Id : Option String
  SubjectEnglish : Option String
  Subject : Option String
  Title : Option String
  BodyEnglish : Option String
  Body : Option String
  Description : Option String
  deriving Repr, DecidableEq

/-- The alert normalization of `routes.ts` lines 321-344.  `nowStr` models
`String(Date.now())`, the id fallback of line 338. -/
def parseAlertMsg (nowStr : String) (msg : AlertMsg) : Alert :=
  let affectedLines :=
    match msg.AssociatedLines with
    | some ls => ls
    | none =>
      match msg.Lines with
      | some ls => ls
      | none => msg.Routes.getD []
  let severity :=
    if containsStr (toLowerStr (jsOr msg.Category "")) "disruption" ||
       containsStr (toLowerStr (jsOr msg.SubCategory "")) "suspension" ||
       msg.Priority == some "High" then "severe"
    else if msg.Priority == some "Medium" ||
            containsStr (toLowerStr (jsOr msg.SubCategory "")) "delay" then "warning"
    else "info"
  { id := jsOr msg.Code (jsOr msg.MessageId (jsOr msg.Id nowStr))
    title := jsOr msg.SubjectEnglish (jsOr msg.Subject (jsOr msg.Title "Service Alert"))
    description := jsOr msg.BodyEnglish (jsOr msg.Body (jsOr msg.Description ""))
    severity := severity
    affectedRoutes := affectedLines }

/-- The alert relevance filter of `routes.ts` lines 346-354.  A
JSON-derived `affectedRoutes` array can never contain `undefined`, so
`includes(lineCode)` is `false` when no line is inferred. -/
def filterAlerts (origin destination : String) (alerts : List Alert) : List Alert :=
  let lineCode := getLineForRouteT LINE_DESTINATIONS origin destination
  alerts.filter (fun a =>
    if a.affectedRoutes.isEmpty then true
    else
      (match lineCode with
       | some c => a.affectedRoutes.contains c
       | none => false) ||
      a.affectedRoutes.contains origin || a.affectedRoutes.contains destination)

/-- The journey response; the `lastUpdated: Date.now()` field is omitted
from the model. -/
structure JourneyResponse where
  departures : List Departure
  alerts : List Alert
  deriving Repr, DecidableEq

/-- The `/api/journey` aggregation (`routes.ts` lines 94-368) over already
decoded fetch outcomes.  `Except.error` models a rejected upstream fetch:
`Promise.allSettled` absorbs the rejection and the `?.` chains plus
`|| []` turn the missing data into an empty list, so the handler itself
never throws on an upstream failure. -/
def getJourney (getTime : String → Option Int) (nowStr : String)
    (origin destination : String)
    (journeyResult : Except Unit (List Journey))
    (nextServiceResult : Except Unit (List RealTimeLine))
    (alertsResult : Except Unit (List AlertMsg)) : JourneyResponse :=
  let journeys := match journeyResult with | .ok js => js | .error _ => []
  let rawLines := match nextServiceResult with | .ok ls => ls | .error _ => []
  let sched := scheduleDepartures journeys
  let filtered := rawLines.filter (isToward LINE_DESTINATIONS STATION_NAMES origin destination)
  let m := realTimeMap filtered
  let merged := mergedAndRest getTime sched m
  let allDeps := merged.1 ++ merged.2.map (fun p => mkRealTimeOnly getTime p.1 p.2)
  let sorted := jsSort (jsLt getTime) (allDeps.filter (fun d => d.departureTime != ""))
  let alerts :=
    match alertsResult with
    | .ok msgs => filterAlerts origin destination (msgs.map (parseAlertMsg nowStr))
    | .error _ => []
  { departures := sorted, alerts := alerts }

/-- A concrete model of `new Date(s).getTime()` restricted to the feed's
timestamp shape `YYYY-MM-DDTHH:MM`; every other string is an invalid date
(`none`, i.e. a `NaN` timestamp).  The numeric value is a strictly
monotone millisecond-scale encoding of the date fields (one minute is
60000 units, as in epoch milliseconds), which is all the theorems use. -/
def demoGetTime (s : String) : Option Int :=
  match s.data with
  | [y1, y2, y3, y4, '-', m1, m2, '-', d1, d2, 'T', h1, h2, ':', n1, n2] =>
    if (y1.isDigit && y2.isDigit && y3.isDigit && y4.isDigit &&
        m1.isDigit && m2.isDigit && d1.isDigit && d2.isDigit &&
        h1.isDigit && h2.isDigit && n1.isDigit && n2.isDigit) then
      let dv := fun (c : Char) => c.toNat - 48
      let y := ((dv y1 * 10 + dv y2) * 10 + dv y3) * 10 + dv y4
      let mo := dv m1 * 10 + dv m2
      let da := dv d1 * 10 + dv d2
      let hr := dv h1 * 10 + dv h2
      let mi := dv n1 * 10 + dv n2
      some ((((((y * 13 + mo) * 32 + da) * 24 + hr) * 60 + mi) * 60000 : Nat) : Int)
    else none
  | _ => none

/-- One step of the schedule dedup, over the flattened
`(service, trip)` stream (same body as `schedStep` on non-null trips). -/
def dedupStep : (List String × List Departure) → Service × Trip →
    (List String × List Departure)
  | (seen, out), (sv, trip) =>
    let tripNumber := jsOr trip.Number ""
    if seen.contains tripNumber then (seen, out)
    else (tripNumber :: seen, out ++ [mkScheduled sv trip])

/-- The flattened iteration order of the nested journeys → services →
trips loops of the schedule parse, with null trips dropped. -/
def flatTrips (journeys : List Journey) : List (Service × Trip) :=
  (journeys.map (fun j =>
    (j.Services.map (fun sv =>
      sv.tripList.filterMap (fun ot => ot.map (fun t => (sv, t))))).flatten)).flatten

/-- The journeys with every literally null trip record removed — exactly
the records the parse's `if (!trip) continue` skips. -/
def stripNullTrips (journeys : List Journey) : List Journey :=
  journeys.map (fun j =>
    ⟨j.Services.map (fun sv =>
      ⟨sv.StartTime, sv.EndTime, sv.tripList.filter (fun ot => ot.isSome)⟩)⟩)

/-- Demo topology: one line `XX` with ordered stations `[A, B, C, D, UN]`
(the shape used by the direction-filter property). -/
def demoTopo : List (String × List String) := [("XX", ["A", "B", "C", "D", "UN"])]

/-- Display names for the demo topology. -/
def demoNames : List (String × String) :=
  [("A", "Alpha"), ("B", "Bravo"), ("C", "Charlie"), ("D", "Delta"), ("UN", "Union")]

/-- A real-time entry on the demo line whose direction text names the
terminal `UN` ("Union") and no other station of the line. -/
def demoDirEntry : RealTimeLine :=
  ⟨some "T1", some "XX", some "Demo", some "XX - Union Station GO", some "T",
   some "2024-06-01 08:15", some "2024-06-01 08:15", none, none, none⟩

/-- Concrete schedule trip `T100` (first occurrence). -/
def demoTrip1 : Trip := ⟨some "T100", some "LW", some "Lakeshore West", some "T"⟩

/-- A second occurrence of trip number `T100` from an overlapping window. -/
def demoTrip2 : Trip := ⟨some "T100", some "LW", some "Duplicate Window", some "T"⟩

def demoService1 : Service :=
  ⟨some "2024-06-01 08:15", some "2024-06-01 09:00", [some demoTrip1]⟩

def demoService2 : Service :=
  ⟨some "2024-06-01 09:15", some "2024-06-01 10:00", [some demoTrip2]⟩

/-- A third trip, departing earlier than `demoTrip1`'s service. -/
def demoTrip3 : Trip := ⟨some "T300", some "LW", some "Lakeshore West", some "T"⟩

def demoService3 : Service :=
  ⟨some "2024-06-01 07:30", some "2024-06-01 08:20", [some demoTrip3]⟩

/-- A trip record with an absent trip number. -/
def demoTripNoNumber : Trip := ⟨none, some "LW", none, some "T"⟩

def demoServiceNoNumber : Service :=
  ⟨some "2024-06-01 08:15", none, [some demoTripNoNumber]⟩

/-- A service containing a null trip record followed by a trip record
with an absent trip number. -/
def demoServiceMixed : Service :=
  ⟨some "2024-06-01 08:15", none, [none, some demoTripNoNumber]⟩

/-- A trip whose service departure time is non-empty but unparsable. -/
def demoTripG : Trip := ⟨some "TG", some "LW", none, some "T"⟩

def demoServiceG : Service := ⟨some "garbage", none, [some demoTripG]⟩

/-- A service whose `StartTime` is the empty string. -/
def demoServiceEmptyTime : Service := ⟨some "", none, [some demoTrip1]⟩

/-- A real-time entry for trip `T100` with a 7-minute delay. -/
def demoRT : RealTimeLine :=
  ⟨some "T100", some "LW", some "Lakeshore West", some "LW - Union Station GO", some "T",
   some "2024-06-01 08:15", some "2024-06-01 08:22", none, some "7", none⟩

/-- A real-time entry for trip `T100` whose computed time is unparsable. -/
def demoRTBad : RealTimeLine :=
  ⟨some "T100", some "LW", some "Lakeshore West", some "LW - Union Station GO", some "T",
   some "2024-06-01 08:15", some "garbage", none, none, none⟩

/-- Alert affecting line LW. -/
def demoAlert : Alert := ⟨"A1", "t", "", "info", ["LW"]⟩

/-- Alert with an empty affected-routes list (system-wide). -/
def demoAlertEmpty : Alert := ⟨"A2", "t", "", "info", []⟩

/-- Alert affecting only line GT. -/
def demoAlertOther : Alert := ⟨"A3", "t", "", "info", ["GT"]⟩

/-!  ## Lemmas about the schedule parse  -/

theorem schedStep_eq_dedupStep (sv : Service) (acc : List String × List Departure)
    (ot : Option Trip) :
    schedStep sv acc ot = (match ot with | none => acc | some t => dedupStep acc (sv, t)) := by
  cases ot <;> cases acc <;> rfl

theorem foldl_schedStep_eq (sv : Service) (L : List (Option Trip)) :
    ∀ acc, L.foldl (schedStep sv) acc
      = (L.filterMap (fun ot => ot.map (fun t => (sv, t)))).foldl dedupStep acc := by
  induction L with
  | nil => intro acc; rfl
  | cons ot L ih =>
    intro acc
    cases ot with
    | none => simpa [List.filterMap_cons, schedStep_eq_dedupStep] using ih acc
    | some t =>
      simp only [List.foldl_cons, List.filterMap_cons, Option.map_some, schedStep_eq_dedupStep]
      exact ih _

theorem scheduleDepartures_eq (journeys : List Journey) :
    scheduleDepartures journeys = ((flatTrips journeys).foldl dedupStep ([], [])).2 := by
  unfold scheduleDepartures flatTrips
  simp only [List.foldl_flatten, List.foldl_map, foldl_schedStep_eq]

theorem dedup_out_mem (P : Departure → Prop) (hmk : ∀ sv tr, P (mkScheduled sv tr)) :
    ∀ (L : List (Service × Trip)) (seen : List String) (out : List Departure),
      (∀ d ∈ out, P d) → ∀ d ∈ (L.foldl dedupStep (seen, out)).2, P d := by
  intro L
  induction L with
  | nil => intro seen out h; exact h
  | cons p L ih =>
    intro seen out h
    obtain ⟨sv, tr⟩ := p
    rw [List.foldl_cons]
    by_cases hc : jsOr tr.Number "" ∈ seen
    · simpa [dedupStep, hc] using ih seen out h
    · simp only [dedupStep, List.contains, List.elem_eq_mem, decide_eq_true_eq, hc, if_false]
      refine ih _ _ ?_
      intro d hd
      rcases List.mem_append.1 hd with h1 | h2
      · exact h d h1
      · rw [List.mem_singleton.1 h2]; exact hmk sv tr

theorem foldl_ext {α β : Type _} (f g : β → α → β) (h : ∀ b a, f b a = g b a) :
    ∀ (l : List α) (b : β), l.foldl f b = l.foldl g b := by
  intro l
  induction l with
  | nil => intro b; rfl
  | cons a l ih =>
    intro b
    rw [List.foldl_cons, List.foldl_cons, h]
    exact ih _

/-- `schedStep` never looks at the service's own trip list. -/
theorem schedStep_tripList_irrel (st et : Option String) (l1 l2 : List (Option Trip))
    (acc : List String × List Departure) (ot : Option Trip) :
    schedStep ⟨st, et, l1⟩ acc ot = schedStep ⟨st, et, l2⟩ acc ot := by
  cases ot <;> cases acc <;> rfl

/-- Null trip records are no-ops of the parse fold, so filtering them out
first changes nothing. -/
theorem foldl_schedStep_filter_isSome (sv : Service) :
    ∀ (l : List (Option Trip)) (acc : List String × List Departure),
      (l.filter (fun ot => ot.isSome)).foldl (schedStep sv) acc
        = l.foldl (schedStep sv) acc := by
  intro l
  induction l with
  | nil => intro acc; rfl
  | cons ot l ih =>
    intro acc
    cases ot with
    | none =>
      rw [show (List.filter (fun ot => ot.isSome) (none :: l))
          = List.filter (fun ot => ot.isSome) l by simp [List.filter_cons]]
      rw [List.foldl_cons]
      rw [show schedStep sv acc none = acc from rfl]
      exact ih acc
    | some t =>
      rw [show (List.filter (fun ot => ot.isSome) (some t :: l))
          = some t :: List.filter (fun ot => ot.isSome) l by simp [List.filter_cons]]
      rw [List.foldl_cons, List.foldl_cons]
      exact ih _

theorem service_fold_strip (sv : Service) (acc : List String × List Departure) :
    (sv.tripList.filter (fun ot => ot.isSome)).foldl
      (schedStep ⟨sv.StartTime, sv.EndTime, sv.tripList.filter (fun ot => ot.isSome)⟩) acc
      = sv.tripList.foldl (schedStep sv) acc := by
  obtain ⟨st, et, l⟩ := sv
  rw [foldl_ext (schedStep ⟨st, et, l.filter (fun ot => ot.isSome)⟩) (schedStep ⟨st, et, l⟩)
    (fun b a => schedStep_tripList_irrel st et _ l b a) (l.filter (fun ot => ot.isSome)) acc]
  exact foldl_schedStep_filter_isSome ⟨st, et, l⟩ l acc

/-- Removing exactly the null trip records does not change the schedule
parse: only null records are skipped. -/
theorem scheduleDepartures_stripNullTrips (journeys : List Journey) :
    scheduleDepartures journeys = scheduleDepartures (stripNullTrips journeys) := by
  unfold scheduleDepartures stripNullTrips
  congr 1
  rw [List.foldl_map]
  refine (foldl_ext _ _ ?_ journeys _).symm
  intro acc j
  show (Journey.mk (j.Services.map (fun sv => Service.mk sv.StartTime sv.EndTime
      (sv.tripList.filter (fun ot => ot.isSome))))).Services.foldl _ acc = _
  rw [show (Journey.mk (j.Services.map (fun sv => Service.mk sv.StartTime sv.EndTime
      (sv.tripList.filter (fun ot => ot.isSome))))).Services
      = j.Services.map (fun sv => Service.mk sv.StartTime sv.EndTime
        (sv.tripList.filter (fun ot => ot.isSome))) from rfl]
  rw [List.foldl_map]
  refine foldl_ext _ _ ?_ j.Services acc
  intro acc2 sv
  exact service_fold_strip sv acc2

/-- Every departure produced by the schedule parse carries the
placeholder real-time fields. -/
theorem scheduleDepartures_placeholder (journeys : List Journey) :
    ∀ d ∈ scheduleDepartures journeys,
      d.delay = some 0 ∧ d.status = "on_time" ∧ d.platform = none ∧ d.source = "schedule" := by
  rw [scheduleDepartures_eq]
  exact dedup_out_mem _ (fun sv tr => ⟨rfl, rfl, rfl, rfl⟩) _ [] [] (by simp)

/-!  ## Lemmas about the stable sort  -/

theorem insertD_perm {α : Type _} (lt : α → α → Bool) (a : α) :
    ∀ l : List α, (insertD lt a l).Perm (a :: l) := by
  intro l
  induction l with
  | nil => exact List.Perm.refl _
  | cons b bs ih =>
    by_cases h : lt a b = true
    · simp [insertD, h]
    · simp only [insertD, h, Bool.false_eq_true, if_false]
      exact (ih.cons b).trans (List.Perm.swap a b bs)

theorem foldl_insertD_perm {α : Type _} (lt : α → α → Bool) :
    ∀ l acc : List α, (l.foldl (fun acc a => insertD lt a acc) acc).Perm (acc ++ l) := by
  intro l
  induction l with
  | nil => intro acc; simp
  | cons a l ih =>
    intro acc
    rw [List.foldl_cons]
    refine (ih (insertD lt a acc)).trans ?_
    refine ((insertD_perm lt a acc).append_right l).trans ?_
    exact List.perm_middle.symm

theorem jsSort_perm {α : Type _} (lt : α → α → Bool) (l : List α) :
    (jsSort lt l).Perm l := by
  simpa [jsSort] using foldl_insertD_perm lt l []

theorem bool_eq_false_of_ne_true {b : Bool} (h : ¬ b = true) : b = false := by
  cases b with
  | true => exact absurd rfl h
  | false => rfl

theorem insertD_pairwise {α : Type _} (lt : α → α → Bool)
    (hasym : ∀ x y, lt x y = true → lt y x = false)
    (htrans : ∀ x y z, lt x y = true → lt y z = true → lt x z = true) (a : α) :
    ∀ l : List α, l.Pairwise (fun x y => lt y x = false) →
      (insertD lt a l).Pairwise (fun x y => lt y x = false) := by
  intro l
  induction l with
  | nil => intro _; simp [insertD]
  | cons b bs ih =>
    intro hp
    rw [List.pairwise_cons] at hp
    obtain ⟨hb, hbs⟩ := hp
    by_cases h : lt a b = true
    · simp only [insertD, h, if_true]
      rw [List.pairwise_cons]
      refine ⟨?_, List.pairwise_cons.2 ⟨hb, hbs⟩⟩
      intro y hy
      rcases List.mem_cons.1 hy with rfl | hy'
      · exact hasym a y h
      · by_contra hya
        have hya' : lt y a = true := by
          cases hlt : lt y a with
          | true => rfl
          | false => exact absurd hlt hya
        have hyb : lt y b = true := htrans y a b hya' h
        have := hb y hy'
        simp_all
    · simp only [insertD, h, Bool.false_eq_true, if_false]
      rw [List.pairwise_cons]
      refine ⟨?_, ih hbs⟩
      intro y hy
      have hmem : y = a ∨ y ∈ bs := by
        have := (insertD_perm lt a bs).mem_iff.1 hy
        simpa using this
      rcases hmem with rfl | hy'
      · exact bool_eq_false_of_ne_true h
      · exact hb y hy'

theorem jsSort_pairwise {α : Type _} (lt : α → α → Bool)
    (hasym : ∀ x y, lt x y = true → lt y x = false)
    (htrans : ∀ x y z, lt x y = true → lt y z = true → lt x z = true) (l : List α) :
    (jsSort lt l).Pairwise (fun x y => lt y x = false) := by
  have key : ∀ l acc : List α, acc.Pairwise (fun x y => lt y x = false) →
      (l.foldl (fun acc a => insertD lt a acc) acc).Pairwise (fun x y => lt y x = false) := by
    intro l
    induction l with
    | nil => intro acc h; exact h
    | cons a l ih =>
      intro acc h
      rw [List.foldl_cons]
      exact ih _ (insertD_pairwise lt hasym htrans a acc h)
  simpa [jsSort] using key l [] (by simp)

theorem jsLt_asymm (g : String → Option Int) :
    ∀ x y : Departure, jsLt g x y = true → jsLt g y x = false := by
  intro x y
  unfold jsLt
  cases hx : g (replaceSpaceT x.departureTime) <;>
    cases hy : g (replaceSpaceT y.departureTime) <;> simp
  omega

theorem jsLt_trans (g : String → Option Int) :
    ∀ x y z : Departure, jsLt g x y = true → jsLt g y z = true → jsLt g x z = true := by
  intro x y z
  unfold jsLt
  cases hx : g (replaceSpaceT x.departureTime) <;>
    cases hy : g (replaceSpaceT y.departureTime) <;>
    cases hz : g (replaceSpaceT z.departureTime) <;> simp
  omega

/-!  ## Lemmas about the real-time map and the merge  -/

theorem mem_mapKeys_set (k : Option String) (v : RealTimeLine) (a : Option String) :
    ∀ m : RTMap, a ∈ mapKeys (mapSet m k v) ↔ a ∈ mapKeys m ∨ a = k := by
  intro m
  induction m with
  | nil => simp [mapSet, mapKeys]
  | cons p rest ih =>
    obtain ⟨k', v'⟩ := p
    by_cases h : k' = k
    · subst h
      simp only [mapSet, beq_self_eq_true, if_true, mapKeys, List.map_cons, List.mem_cons]
      tauto
    · have hb : (k' == k) = false := by simp [h]
      simp only [mapSet, hb, Bool.false_eq_true, if_false, mapKeys, List.map_cons,
        List.mem_cons]
      rw [show (rest.map (fun p => p.1) : List (Option String))
          = mapKeys rest from rfl] at *
      constructor
      · rintro (rfl | hmem)
        · exact Or.inl (Or.inl rfl)
        · rcases (ih).1 hmem with hm | hm
          · exact Or.inl (Or.inr hm)
          · exact Or.inr hm
      · rintro ((rfl | hm) | rfl)
        · exact Or.inl rfl
        · exact Or.inr ((ih).2 (Or.inl hm))
        · exact Or.inr ((ih).2 (Or.inr rfl))

theorem nodup_mapKeys_set (k : Option String) (v : RealTimeLine) :
    ∀ m : RTMap, (mapKeys m).Nodup → (mapKeys (mapSet m k v)).Nodup := by
  intro m
  induction m with
  | nil => intro _; simp [mapSet, mapKeys]
  | cons p rest ih =>
    obtain ⟨k', v'⟩ := p
    intro h
    rw [show mapKeys ((k', v') :: rest) = k' :: mapKeys rest from rfl,
      List.nodup_cons] at h
    obtain ⟨hk', hrest⟩ := h
    by_cases hkk : k' = k
    · subst hkk
      simp only [mapSet, beq_self_eq_true, if_true]
      rw [show mapKeys ((k', v) :: rest) = k' :: mapKeys rest from rfl, List.nodup_cons]
      exact ⟨hk', hrest⟩
    · have hb : (k' == k) = false := by simp [hkk]
      simp only [mapSet, hb, Bool.false_eq_true, if_false]
      rw [show mapKeys ((k', v') :: mapSet rest k v) = k' :: mapKeys (mapSet rest k v) from rfl,
        List.nodup_cons]
      refine ⟨?_, ih hrest⟩
      intro hmem
      rcases (mem_mapKeys_set k v k' rest).1 hmem with hm | hm
      · exact hk' hm
      · exact hkk hm

theorem mapGet_eq_none_iff (k : Option String) :
    ∀ m : RTMap, mapGet m k = none ↔ k ∉ mapKeys m := by
  intro m
  induction m with
  | nil => simp [mapGet, mapKeys]
  | cons p rest ih =>
    obtain ⟨k', v'⟩ := p
    by_cases h : k' = k
    · subst h
      simp [mapGet, mapKeys]
    · have hb : (k' == k) = false := by simp [h]
      simp only [mapGet, hb, Bool.false_eq_true, if_false,
        show mapKeys ((k', v') :: rest) = k' :: mapKeys rest from rfl, List.mem_cons]
      rw [ih]
      constructor
      · rintro hk (rfl | hm)
        · exact h rfl
        · exact hk hm
      · intro hk hm
        exact hk (Or.inr hm)

theorem mapKeys_delete_subset (k : Option String) :
    ∀ m : RTMap, mapKeys (mapDelete m k) ⊆ mapKeys m := by
  intro m
  induction m with
  | nil => simp [mapDelete]
  | cons p rest ih =>
    obtain ⟨k', v'⟩ := p
    by_cases h : k' = k
    · subst h
      simp only [mapDelete, beq_self_eq_true, if_true]
      exact fun a ha => List.mem_cons_of_mem _ ha
    · have hb : (k' == k) = false := by simp [h]
      simp only [mapDelete, hb, Bool.false_eq_true, if_false]
      intro a ha
      rw [show mapKeys ((k', v') :: mapDelete rest k) = k' :: mapKeys (mapDelete rest k)
        from rfl, List.mem_cons] at ha
      rcases ha with rfl | ha
      · exact List.mem_cons_self _ _
      · exact List.mem_cons_of_mem _ (ih ha)

theorem nodup_mapKeys_delete (k : Option String) :
    ∀ m : RTMap, (mapKeys m).Nodup → (mapKeys (mapDelete m k)).Nodup := by
  intro m
  induction m with
  | nil => intro h; simpa [mapDelete] using h
  | cons p rest ih =>
    obtain ⟨k', v'⟩ := p
    intro h
    rw [show mapKeys ((k', v') :: rest) = k' :: mapKeys rest from rfl, List.nodup_cons] at h
    obtain ⟨hk', hrest⟩ := h
    by_cases hkk : k' = k
    · subst hkk
      simpa [mapDelete] using hrest
    · have hb : (k' == k) = false := by simp [hkk]
      simp only [mapDelete, hb, Bool.false_eq_true, if_false]
      rw [show mapKeys ((k', v') :: mapDelete rest k) = k' :: mapKeys (mapDelete rest k)
        from rfl, List.nodup_cons]
      exact ⟨fun hm => hk' (mapKeys_delete_subset k rest hm), ih hrest⟩

theorem not_mem_mapKeys_delete (k : Option String) :
    ∀ m : RTMap, (mapKeys m).Nodup → k ∉ mapKeys (mapDelete m k) := by
  intro m
  induction m with
  | nil => intro _; simp [mapDelete, mapKeys]
  | cons p rest ih =>
    obtain ⟨k', v'⟩ := p
    intro h
    rw [show mapKeys ((k', v') :: rest) = k' :: mapKeys rest from rfl, List.nodup_cons] at h
    obtain ⟨hk', hrest⟩ := h
    by_cases hkk : k' = k
    · subst hkk
      simpa [mapDelete] using hk'
    · have hb : (k' == k) = false := by simp [hkk]
      simp only [mapDelete, hb, Bool.false_eq_true, if_false]
      intro hmem
      rw [show mapKeys ((k', v') :: mapDelete rest k) = k' :: mapKeys (mapDelete rest k)
        from rfl, List.mem_cons] at hmem
      rcases hmem with rfl | hm
      · exact hkk rfl
      · exact ih hrest hm

theorem nodup_mapKeys_realTimeMap (filtered : List RealTimeLine) :
    (mapKeys (realTimeMap filtered)).Nodup := by
  have key : ∀ (l : List RealTimeLine) (m : RTMap), (mapKeys m).Nodup →
      (mapKeys (l.foldl (fun m line => mapSet m line.TripNumber line) m)).Nodup := by
    intro l
    induction l with
    | nil => intro m h; exact h
    | cons a l ih =>
      intro m h
      rw [List.foldl_cons]
      exact ih _ (nodup_mapKeys_set _ _ m h)
  simpa [realTimeMap] using key filtered [] (by simp [mapKeys])

theorem enrich_tripNumber (g : String → Option Int) (dep : Departure) (rt : RealTimeLine) :
    (enrichWithRealTime g dep rt).tripNumber = dep.tripNumber := rfl

theorem mkRealTimeOnly_tripNumber (g : String → Option Int) (k : Option String)
    (rt : RealTimeLine) : (mkRealTimeOnly g k rt).tripNumber = k := rfl

theorem merge_foldl_inv (g : String → Option Int) :
    ∀ (sched acc : List Departure) (m : RTMap), (mapKeys m).Nodup →
      ((sched.foldl (mergeStep g) (acc, m)).1.map (fun d => d.tripNumber)
          = acc.map (fun d => d.tripNumber) ++ sched.map (fun d => d.tripNumber)) ∧
      (mapKeys (sched.foldl (mergeStep g) (acc, m)).2).Nodup ∧
      (mapKeys (sched.foldl (mergeStep g) (acc, m)).2 ⊆ mapKeys m) ∧
      (∀ d ∈ sched, d.tripNumber ∉ mapKeys (sched.foldl (mergeStep g) (acc, m)).2) := by
  intro sched
  induction sched with
  | nil =>
    intro acc m h
    exact ⟨by simp, h, fun a ha => ha, by simp⟩
  | cons dep sched ih =>
    intro acc m h
    rw [List.foldl_cons]
    cases hget : mapGet m dep.tripNumber with
    | some rt =>
      have step : mergeStep g (acc, m) dep
          = (acc ++ [enrichWithRealTime g dep rt], mapDelete m dep.tripNumber) := by
        simp [mergeStep, hget]
      rw [step]
      have hnd : (mapKeys (mapDelete m dep.tripNumber)).Nodup := nodup_mapKeys_delete _ m h
      obtain ⟨h1, h2, h3, h4⟩ :=
        ih (acc ++ [enrichWithRealTime g dep rt]) (mapDelete m dep.tripNumber) hnd
      refine ⟨?_, h2, fun a ha => mapKeys_delete_subset _ m (h3 ha), ?_⟩
      · rw [h1]
        simp [enrich_tripNumber]
      · intro d hd
        rcases List.mem_cons.1 hd with rfl | hd'
        · intro hmem
          exact not_mem_mapKeys_delete _ m h (h3 hmem)
        · exact h4 d hd'
    | none =>
      have step : mergeStep g (acc, m) dep = (acc ++ [dep], m) := by
        simp [mergeStep, hget]
      rw [step]
      obtain ⟨h1, h2, h3, h4⟩ := ih (acc ++ [dep]) m h
      refine ⟨?_, h2, h3, ?_⟩
      · rw [h1]
        simp
      · intro d hd
        rcases List.mem_cons.1 hd with rfl | hd'
        · intro hmem
          exact (mapGet_eq_none_iff _ m).1 hget (h3 hmem)
        · exact h4 d hd'

theorem dedup_keys_nodup :
    ∀ (L : List (Service × Trip)) (seen : List String) (out : List Departure),
      ((out.map (fun d => d.tripNumber)).Nodup ∧
        (∀ d ∈ out, ∃ s, d.tripNumber = some s ∧ s ∈ seen)) →
      ((L.foldl dedupStep (seen, out)).2.map (fun d => d.tripNumber)).Nodup := by
  intro L
  induction L with
  | nil => intro seen out h; exact h.1
  | cons p L ih =>
    intro seen out h
    obtain ⟨sv, tr⟩ := p
    rw [List.foldl_cons]
    by_cases hc : jsOr tr.Number "" ∈ seen
    · have hstep : dedupStep (seen, out) (sv, tr) = (seen, out) := by
        simp [dedupStep, hc]
      rw [hstep]
      exact ih seen out h
    · have hstep : dedupStep (seen, out) (sv, tr)
          = (jsOr tr.Number "" :: seen, out ++ [mkScheduled sv tr]) := by
        simp [dedupStep, hc]
      rw [hstep]
      refine ih _ _ ⟨?_, ?_⟩
      · rw [List.map_append]
        rw [List.nodup_append]
        refine ⟨h.1, by simp, ?_⟩
        intro a ha hb
        have ha' : a = some (jsOr tr.Number "") := by
          simpa [mkScheduled] using hb
        subst ha'
        obtain ⟨d, hd, hdk⟩ := List.mem_map.1 ha
        obtain ⟨s, hs1, hs2⟩ := h.2 d hd
        rw [hs1] at hdk
        have : s = jsOr tr.Number "" := by
          exact Option.some.inj hdk
        subst this
        exact hc hs2
      · intro d hd
        rcases List.mem_append.1 hd with h1 | h2
        · obtain ⟨s, hs1, hs2⟩ := h.2 d h1
          exact ⟨s, hs1, List.mem_cons_of_mem _ hs2⟩
        · rw [List.mem_singleton.1 h2]
          exact ⟨jsOr tr.Number "", rfl, List.mem_cons_self _ _⟩

theorem scheduleDepartures_keys_nodup (journeys : List Journey) :
    ((scheduleDepartures journeys).map (fun d => d.tripNumber)).Nodup := by
  rw [scheduleDepartures_eq]
  exact dedup_keys_nodup _ [] [] ⟨by simp, by simp⟩

/-- The concatenation of the merged list with the leftover real-time-only
departures has pairwise distinct trip numbers. -/
theorem merged_all_pairwise (g : String → Option Int) (journeys : List Journey)
    (filtered : List RealTimeLine) :
    ((mergedAndRest g (scheduleDepartures journeys) (realTimeMap filtered)).1
        ++ (mergedAndRest g (scheduleDepartures journeys) (realTimeMap filtered)).2.map
            (fun p => mkRealTimeOnly g p.1 p.2)).Pairwise
      (fun a b => a.tripNumber ≠ b.tripNumber) := by
  have hm := nodup_mapKeys_realTimeMap filtered
  obtain ⟨h1, h2, h3, h4⟩ :=
    merge_foldl_inv g (scheduleDepartures journeys) [] (realTimeMap filtered) hm
  rw [List.pairwise_append]
  refine ⟨?_, ?_, ?_⟩
  · have hnd : ((mergedAndRest g (scheduleDepartures journeys)
        (realTimeMap filtered)).1.map (fun d => d.tripNumber)).Nodup := by
      rw [mergedAndRest, h1]
      simpa using scheduleDepartures_keys_nodup journeys
    exact List.pairwise_map.1 hnd
  · have hkeys : ((mergedAndRest g (scheduleDepartures journeys)
          (realTimeMap filtered)).2.map (fun p => mkRealTimeOnly g p.1 p.2)).map
        (fun d => d.tripNumber)
        = mapKeys (mergedAndRest g (scheduleDepartures journeys) (realTimeMap filtered)).2 := by
      rw [List.map_map]
      rfl
    have hnd : ((mergedAndRest g (scheduleDepartures journeys)
        (realTimeMap filtered)).2.map (fun p => mkRealTimeOnly g p.1 p.2)).map
          (fun d => d.tripNumber) |>.Nodup := by
      rw [hkeys]
      exact h2
    exact List.pairwise_map.1 hnd
  · intro a ha b hb
    have hka : a.tripNumber ∈ (mergedAndRest g (scheduleDepartures journeys)
        (realTimeMap filtered)).1.map (fun d => d.tripNumber) :=
      List.mem_map_of_mem _ ha
    rw [mergedAndRest, h1] at hka
    simp only [List.map_nil, List.nil_append] at hka
    obtain ⟨d, hd, hdk⟩ := List.mem_map.1 hka
    obtain ⟨p, hp, hpk⟩ := List.mem_map.1 hb
    have hkb : b.tripNumber ∈ mapKeys (mergedAndRest g (scheduleDepartures journeys)
        (realTimeMap filtered)).2 := by
      rw [← hpk, mkRealTimeOnly_tripNumber]
      exact List.mem_map_of_mem _ hp
    intro he
    have hd' : d.tripNumber ∈ mapKeys (mergedAndRest g (scheduleDepartures journeys)
        (realTimeMap filtered)).2 := by
      rw [hdk, he]
      exact hkb
    exact h4 d hd hd'

/-- First-wins characterisation of the schedule dedup: the output entries
with trip number `t` are those already accumulated, plus — when `t` is
unseen — the record built from the first occurrence of `t` in the
remaining stream. -/
theorem dedup_first_wins (t : String) :
    ∀ (L : List (Service × Trip)) (seen : List String) (out : List Departure),
      ((L.foldl dedupStep (seen, out)).2.filter (fun d => d.tripNumber == some t))
        = out.filter (fun d => d.tripNumber == some t) ++
          (if t ∈ seen then []
           else
             match L.find? (fun p => jsOr p.2.Number "" == t) with
             | some p => [mkScheduled p.1 p.2]
             | none => []) := by
  intro L
  induction L with
  | nil =>
    intro seen out
    by_cases hs : t ∈ seen <;> simp [hs]
  | cons p L ih =>
    intro seen out
    obtain ⟨sv, tr⟩ := p
    rw [List.foldl_cons]
    by_cases hc : jsOr tr.Number "" ∈ seen
    · have hstep : dedupStep (seen, out) (sv, tr) = (seen, out) := by
        simp [dedupStep, hc]
      rw [hstep, ih]
      by_cases hts : t ∈ seen
      · simp [hts]
      · have hne : ¬ (jsOr tr.Number "" == t) = true := by
          simp only [beq_iff_eq]
          intro h
          exact hts (h ▸ hc)
        have hfind : List.find? (fun p => jsOr p.2.Number "" == t) ((sv, tr) :: L)
            = List.find? (fun p => jsOr p.2.Number "" == t) L :=
          List.find?_cons_of_neg _ hne
        rw [hfind]
    · have hstep : dedupStep (seen, out) (sv, tr)
          = (jsOr tr.Number "" :: seen, out ++ [mkScheduled sv tr]) := by
        simp [dedupStep, hc]
      rw [hstep, ih, List.filter_append]
      by_cases hkt : jsOr tr.Number "" = t
      · subst hkt
        rw [if_pos (List.mem_cons_self _ _), if_neg hc]
        have hfind : List.find? (fun p => jsOr p.2.Number "" == jsOr tr.Number "")
            ((sv, tr) :: L) = some (sv, tr) :=
          List.find?_cons_of_pos _ (by simp)
        rw [hfind]
        have hfil : ([mkScheduled sv tr].filter
            (fun d => d.tripNumber == some (jsOr tr.Number ""))) = [mkScheduled sv tr] := by
          simp [mkScheduled]
        rw [hfil]
        simp
      · have hmem : (t ∈ jsOr tr.Number "" :: seen) ↔ t ∈ seen := by
          rw [List.mem_cons]
          constructor
          · rintro (rfl | h)
            · exact absurd rfl hkt
            · exact h
          · exact Or.inr
        have hfil : ([mkScheduled sv tr].filter (fun d => d.tripNumber == some t)) = [] := by
          simp [mkScheduled, hkt]
        rw [hfil, List.append_nil]
        have hfind : List.find? (fun p => jsOr p.2.Number "" == t) ((sv, tr) :: L)
            = List.find? (fun p => jsOr p.2.Number "" == t) L :=
          List.find?_cons_of_neg _ (by simp [hkt])
        rw [hfind]
        by_cases hts : t ∈ seen
        · rw [if_pos (hmem.2 hts), if_pos hts]
        · rw [if_neg (fun h => hts (hmem.1 h)), if_neg hts]

/-!  ## Claim theorems  -/

/-- C10: enrichment leaves `tripNumber`, `arrivalTime`, `line`,
`vehicleType`, and `source` unchanged; only `departureTime`, `platform`,
`delay`, `status` may differ, and `departureTime` is replaced by the
real-time entry's scheduled departure time only when that time is
non-empty, otherwise the schedule's value is kept. -/
theorem enrichment_frame (g : String → Option Int) (dep : Departure) (rt : RealTimeLine) :
    (enrichWithRealTime g dep rt).tripNumber = dep.tripNumber ∧
    (enrichWithRealTime g dep rt).arrivalTime = dep.arrivalTime ∧
    (enrichWithRealTime g dep rt).line = dep.line ∧
    (enrichWithRealTime g dep rt).vehicleType = dep.vehicleType ∧
    (enrichWithRealTime g dep rt).source = dep.source ∧
    (enrichWithRealTime g dep rt).departureTime =
      (if jsOr rt.ScheduledDepartureTime "" = "" then dep.departureTime
       else jsOr rt.ScheduledDepartureTime "") := by
  refine ⟨rfl, rfl, rfl, rfl, rfl, ?_⟩
  by_cases h : jsOr rt.ScheduledDepartureTime "" = "" <;>
    simp [enrichWithRealTime, h]

/-- C1: every schedule-parse departure carries the placeholder values
(delay 0, status `on_time`, platform absent), and on such a departure the
enrichment's delay, status and platform equal pure functions of the
real-time entry alone (timestamps, status code, scheduled-or-actual
platform) — never the placeholders. -/
theorem merge_uses_realtime_fields (g : String → Option Int) (journeys : List Journey) :
    (∀ d ∈ scheduleDepartures journeys,
        d.delay = some 0 ∧ d.status = "on_time" ∧ d.platform = none) ∧
    (∀ (dep : Departure) (rt : RealTimeLine),
        dep.delay = some 0 → dep.status = "on_time" → dep.platform = none →
        (enrichWithRealTime g dep rt).delay = rtDelay g rt ∧
        (enrichWithRealTime g dep rt).status = rtStatus g rt ∧
        (enrichWithRealTime g dep rt).platform = rtPlatform rt) := by
  constructor
  · intro d hd
    obtain ⟨h1, h2, h3, _⟩ := scheduleDepartures_placeholder journeys d hd
    exact ⟨h1, h2, h3⟩
  · intro dep rt h1 h2 h3
    refine ⟨rfl, ?_, ?_⟩
    · simp [enrichWithRealTime, rtStatus, h2]
    · simp [enrichWithRealTime, rtPlatform, h3, jsOrO, truthyS]

/-- Witness for C1 at a concrete enriched departure. -/
theorem merge_uses_realtime_fields_witness :
    (mkScheduled demoService1 demoTrip1).delay = some 0 ∧
    (enrichWithRealTime demoGetTime (mkScheduled demoService1 demoTrip1) demoRT).delay
      = rtDelay demoGetTime demoRT ∧
    (enrichWithRealTime demoGetTime (mkScheduled demoService1 demoTrip1) demoRT).status
      = rtStatus demoGetTime demoRT ∧
    (enrichWithRealTime demoGetTime (mkScheduled demoService1 demoTrip1) demoRT).platform
      = rtPlatform demoRT := by
  have h := (merge_uses_realtime_fields demoGetTime []).2
      (mkScheduled demoService1 demoTrip1) demoRT rfl rfl rfl
  exact ⟨rfl, h.1, h.2.1, h.2.2⟩

/-- C2 (corrected): every returned departure has a non-empty
`departureTime`, but entries whose non-empty timestamp fails to parse are
retained, not excluded (see the counterexample), and they make the sort
comparator inconsistent; when every listed entry's timestamp parses, the
list is in ascending parsed-time order. -/
theorem journey_departures_sorted (g : String → Option Int) (nowStr origin destination : String)
    (jr : Except Unit (List Journey)) (nr : Except Unit (List RealTimeLine))
    (ar : Except Unit (List AlertMsg)) :
    (∀ d ∈ (getJourney g nowStr origin destination jr nr ar).departures,
        d.departureTime ≠ "") ∧
    ((∀ d ∈ (getJourney g nowStr origin destination jr nr ar).departures,
        (g (replaceSpaceT d.departureTime)).isSome = true) →
      (getJourney g nowStr origin destination jr nr ar).departures.Pairwise
        (fun a b => ∀ x y, g (replaceSpaceT a.departureTime) = some x →
          g (replaceSpaceT b.departureTime) = some y → x ≤ y)) := by
  constructor
  · intro d hd
    simp only [getJourney] at hd
    have hd' := (jsSort_perm (jsLt g) _).mem_iff.1 hd
    have := (List.mem_filter.1 hd').2
    simpa using this
  · intro _
    simp only [getJourney]
    refine (jsSort_pairwise (jsLt g) (jsLt_asymm g) (jsLt_trans g) _).imp ?_
    intro a b hab x y hx hy
    unfold jsLt at hab
    rw [hx, hy] at hab
    simp only [decide_eq_false_iff_not] at hab
    omega

/-- C2 counterexample: a schedule entry whose departure time is the
non-empty unparsable string `"garbage"` is retained in the final list,
although the claim says entries that fail to parse are excluded. -/
theorem journey_keeps_unparsable_departure :
    (getJourney demoGetTime "0" "BU" "UN" (.ok [⟨[demoServiceG]⟩])
        (.error ()) (.error ())).departures
      = [mkScheduled demoServiceG demoTripG] ∧
    (mkScheduled demoServiceG demoTripG).departureTime = "garbage" ∧
    demoGetTime (replaceSpaceT "garbage") = none := by
  exact ⟨by decide, rfl, rfl⟩

/-- Witness for C2 on a concrete two-departure journey that the sort must
reorder. -/
theorem journey_departures_sorted_witness :
    (∀ d ∈ (getJourney demoGetTime "0" "BU" "UN"
        (.ok [⟨[demoService1]⟩, ⟨[demoService3]⟩]) (.error ()) (.error ())).departures,
      d.departureTime ≠ "") ∧
    (getJourney demoGetTime "0" "BU" "UN"
        (.ok [⟨[demoService1]⟩, ⟨[demoService3]⟩]) (.error ()) (.error ())).departures.Pairwise
      (fun a b => ∀ x y, demoGetTime (replaceSpaceT a.departureTime) = some x →
        demoGetTime (replaceSpaceT b.departureTime) = some y → x ≤ y) := by
  have h := journey_departures_sorted demoGetTime "0" "BU" "UN"
      (.ok [⟨[demoService1]⟩, ⟨[demoService3]⟩]) (.error ()) (.error ())
  exact ⟨h.1, h.2 (by decide)⟩

/-- C5: no trip number appears twice in the final departures list — the
schedule parse dedups by trip number, the real-time map has unique keys,
matched entries are consumed from the map, and only the unconsumed
remainder is appended. -/
theorem journey_no_duplicate_trip (g : String → Option Int) (nowStr origin destination : String)
    (jr : Except Unit (List Journey)) (nr : Except Unit (List RealTimeLine))
    (ar : Except Unit (List AlertMsg)) :
    (getJourney g nowStr origin destination jr nr ar).departures.Pairwise
      (fun a b => a.tripNumber ≠ b.tripNumber) := by
  simp only [getJourney]
  refine ((jsSort_perm (jsLt g) _).pairwise_iff ?_).2 ?_
  · exact fun h he => h he.symm
  · exact List.Pairwise.sublist (List.filter_sublist _) (merged_all_pairwise g _ _)

/-- Witness for C5: a concrete journey merging a schedule entry, an
enriched entry and a real-time-only entry still has distinct trip
numbers. -/
theorem journey_no_duplicate_trip_witness :
    (getJourney demoGetTime "0" "BU" "UN" (.ok [⟨[demoService1]⟩, ⟨[demoService3]⟩])
        (.ok [demoRT]) (.error ())).departures.Pairwise
      (fun a b => a.tripNumber ≠ b.tripNumber) :=
  journey_no_duplicate_trip demoGetTime "0" "BU" "UN"
    (.ok [⟨[demoService1]⟩, ⟨[demoService3]⟩]) (.ok [demoRT]) (.error ())

theorem merge_with_empty_map (g : String → Option Int) :
    ∀ sched acc : List Departure,
      sched.foldl (mergeStep g) (acc, ([] : RTMap)) = (acc ++ sched, []) := by
  intro sched
  induction sched with
  | nil => intro acc; simp
  | cons dep sched ih =>
    intro acc
    rw [List.foldl_cons]
    have hstep : mergeStep g (acc, ([] : RTMap)) dep = (acc ++ [dep], []) := by
      simp [mergeStep, mapGet]
    rw [hstep, ih]
    simp

/-- C8 (corrected): when the next-service fetch fails, the aggregation
does not throw and returns exactly the scheduled departures whose
departure time is non-empty (sorted), all unenriched with delay 0 and
status `on_time`; scheduled departures with an empty departure time are
dropped by the final non-empty filter (see the counterexample). -/
theorem journey_degrades_without_next_service (g : String → Option Int)
    (nowStr origin destination : String) (journeys : List Journey)
    (ar : Except Unit (List AlertMsg)) :
    (getJourney g nowStr origin destination (.ok journeys) (.error ()) ar).departures
      = jsSort (jsLt g)
          ((scheduleDepartures journeys).filter (fun d => d.departureTime != "")) ∧
    (getJourney g nowStr origin destination (.ok journeys) (.error ()) ar).departures.Perm
      ((scheduleDepartures journeys).filter (fun d => d.departureTime != "")) ∧
    ∀ d ∈ (getJourney g nowStr origin destination (.ok journeys) (.error ()) ar).departures,
      d.delay = some 0 ∧ d.status = "on_time" ∧ d.source = "schedule" := by
  have heq : (getJourney g nowStr origin destination (.ok journeys) (.error ()) ar).departures
      = jsSort (jsLt g)
          ((scheduleDepartures journeys).filter (fun d => d.departureTime != "")) := by
    simp only [getJourney, List.filter_nil, realTimeMap, List.foldl_nil, mergedAndRest,
      merge_with_empty_map, List.nil_append, List.map_nil, List.append_nil]
  refine ⟨heq, ?_, ?_⟩
  · rw [heq]
    exact jsSort_perm _ _
  · intro d hd
    rw [heq] at hd
    have hd' := (jsSort_perm (jsLt g) _).mem_iff.1 hd
    have hmem := (List.mem_filter.1 hd').1
    obtain ⟨h1, h2, _, h3⟩ := scheduleDepartures_placeholder journeys d hmem
    exact ⟨h1, h2, h3⟩

/-- C8 counterexample: with the next-service fetch failed, a scheduled
departure whose `StartTime` is empty is parsed into the scheduled list but
absent from the returned departures, so not every scheduled departure is
returned. -/
theorem journey_drops_empty_time_departure :
    scheduleDepartures [⟨[demoServiceEmptyTime]⟩]
      = [mkScheduled demoServiceEmptyTime demoTrip1] ∧
    (getJourney demoGetTime "0" "BU" "UN" (.ok [⟨[demoServiceEmptyTime]⟩])
        (.error ()) (.error ())).departures = [] := by
  exact ⟨by decide, by decide⟩

/-- Witness for C8 on a concrete one-departure journey. -/
theorem journey_degrades_without_next_service_witness :
    (getJourney demoGetTime "0" "BU" "UN" (.ok [⟨[demoService1]⟩])
        (.error ()) (.error ())).departures
      = jsSort (jsLt demoGetTime)
          ((scheduleDepartures [⟨[demoService1]⟩]).filter (fun d => d.departureTime != "")) ∧
    ∀ d ∈ (getJourney demoGetTime "0" "BU" "UN" (.ok [⟨[demoService1]⟩])
        (.error ()) (.error ())).departures,
      d.delay = some 0 ∧ d.status = "on_time" ∧ d.source = "schedule" := by
  have h := journey_degrades_without_next_service demoGetTime "0" "BU" "UN"
      [⟨[demoService1]⟩] (.error ())
  exact ⟨h.1, h.2.2⟩

/-- C3 (code bug): in JavaScript an unparsable timestamp makes `new Date`
return an Invalid Date rather than throw, so the `catch` guard is dead
code and `Math.round(NaN) = NaN` (modelled `none`) becomes the delay
instead of the 0 the spec requires; the round formula, the
absent-timestamp case and the equal-timestamps case behave as specified. -/
theorem delay_nan_on_unparsable_timestamp :
    computeDelay demoGetTime "2024-06-01 08:15" "garbage" = none ∧
    (enrichWithRealTime demoGetTime (mkScheduled demoService1 demoTrip1) demoRTBad).delay
      = none ∧
    computeDelay demoGetTime "2024-06-01 08:15" "2024-06-01 08:22" = some 7 ∧
    computeDelay demoGetTime "" "2024-06-01 08:22" = some 0 ∧
    computeDelay demoGetTime "2024-06-01 08:15" "2024-06-01 08:15" = some 0 := by
  exact ⟨rfl, rfl, rfl, rfl, rfl⟩

/-- C6: for a trip number occurring anywhere in the schedule response, the
parse yields exactly one ScheduledDeparture with that number, built from
the first occurrence in iteration order (journeys, then services, then
trips); later occurrences are discarded. -/
theorem schedule_dedup_first_occurrence (journeys : List Journey) (t : String)
    (sv : Service) (tr : Trip)
    (h : (flatTrips journeys).find? (fun p => jsOr p.2.Number "" == t) = some (sv, tr)) :
    (scheduleDepartures journeys).filter (fun d => d.tripNumber == some t)
      = [mkScheduled sv tr] := by
  rw [scheduleDepartures_eq, dedup_first_wins t (flatTrips journeys) [] []]
  simp [h]

/-- Witness for C6: trip `T100` occurs in two journeys; the parse keeps
only the record built from the first one. -/
theorem schedule_dedup_first_occurrence_witness :
    (flatTrips [⟨[demoService1]⟩, ⟨[demoService2]⟩]).find?
        (fun p => jsOr p.2.Number "" == "T100") = some (demoService1, demoTrip1) ∧
    (scheduleDepartures [⟨[demoService1]⟩, ⟨[demoService2]⟩]).filter
        (fun d => d.tripNumber == some "T100") = [mkScheduled demoService1 demoTrip1] := by
  refine ⟨by decide, ?_⟩
  exact schedule_dedup_first_occurrence _ _ _ _ (by decide)

/-- C7 counterexample: a trip record that is present but missing its
`Number` field is not skipped — the parse emits a ScheduledDeparture for
it, with an empty trip number. -/
theorem schedule_keeps_numberless_trip :
    demoTripNoNumber.Number = none ∧
    scheduleDepartures [⟨[demoServiceNoNumber]⟩]
      = [mkScheduled demoServiceNoNumber demoTripNoNumber] ∧
    (mkScheduled demoServiceNoNumber demoTripNoNumber).tripNumber = some "" := by
  exact ⟨rfl, by decide, rfl⟩

/-- C7 (corrected): for arbitrary journeys — the parse is total (no error
is ever raised); removing exactly the literally null trip records (the
ones `if (!trip) continue` skips) leaves the output unchanged; a present
trip record with an absent trip number is not skipped: the output's
entries with an empty trip number are exactly the record built from the
first trip whose trip-number key is empty, so there is at most one such
entry (the dedup set also dedups the empty key), and a numberless trip
yields the empty trip number. -/
theorem schedule_skips_only_null_trips (journeys : List Journey) :
    scheduleDepartures journeys = scheduleDepartures (stripNullTrips journeys) ∧
    ((scheduleDepartures journeys).filter (fun d => d.tripNumber == some "")
      = (match (flatTrips journeys).find? (fun p => jsOr p.2.Number "" == "") with
         | some p => [mkScheduled p.1 p.2]
         | none => [])) ∧
    ((scheduleDepartures journeys).filter (fun d => d.tripNumber == some "")).length ≤ 1 ∧
    (∀ (sv : Service) (tr : Trip), tr.Number = none →
      (mkScheduled sv tr).tripNumber = some "") := by
  have h2 : (scheduleDepartures journeys).filter (fun d => d.tripNumber == some "")
      = (match (flatTrips journeys).find? (fun p => jsOr p.2.Number "" == "") with
         | some p => [mkScheduled p.1 p.2]
         | none => []) := by
    rw [scheduleDepartures_eq, dedup_first_wins "" (flatTrips journeys) [] []]
    simp
  refine ⟨scheduleDepartures_stripNullTrips journeys, h2, ?_, ?_⟩
  · rw [h2]
    cases (flatTrips journeys).find? (fun p => jsOr p.2.Number "" == "") <;> simp
  · intro sv tr hn
    simp [mkScheduled, hn, jsOr, truthyS]

theorem strContains_iff (l : List String) (x : String) : l.contains x = true ↔ x ∈ l := by
  simp [List.contains, List.elem_iff]

/-- C9: an alert with an empty (or absent, normalised to empty) affected
routes list is included for every origin/destination; a non-empty one is
included iff its list contains the inferred line code, the origin code, or
the destination code; and the journey result's alerts are exactly the
filtered normalised alerts. -/
theorem alert_inclusion (g : String → Option Int) (nowStr origin destination : String)
    (jr : Except Unit (List Journey)) (nr : Except Unit (List RealTimeLine))
    (msgs : List AlertMsg) (alerts : List Alert) (a : Alert) (ha : a ∈ alerts) :
    ((getJourney g nowStr origin destination jr nr (.ok msgs)).alerts
        = filterAlerts origin destination (msgs.map (parseAlertMsg nowStr))) ∧
    (a ∈ filterAlerts origin destination alerts ↔
      a.affectedRoutes = [] ∨
      (∃ c, getLineForRouteT LINE_DESTINATIONS origin destination = some c
          ∧ c ∈ a.affectedRoutes) ∨
      origin ∈ a.affectedRoutes ∨ destination ∈ a.affectedRoutes) := by
  refine ⟨rfl, ?_⟩
  simp only [filterAlerts, List.mem_filter]
  cases hl : getLineForRouteT LINE_DESTINATIONS origin destination with
  | none =>
    simp only [hl]
    constructor
    · rintro ⟨-, hcond⟩
      by_cases he : a.affectedRoutes.isEmpty
      · exact Or.inl (by simpa using he)
      · rw [if_neg he] at hcond
        simp only [Bool.false_or, Bool.or_eq_true] at hcond
        rcases hcond with ho | hd
        · exact Or.inr (Or.inr (Or.inl ((strContains_iff _ _).1 ho)))
        · exact Or.inr (Or.inr (Or.inr ((strContains_iff _ _).1 hd)))
    · intro hdisj
      refine ⟨ha, ?_⟩
      by_cases he : a.affectedRoutes.isEmpty
      · rw [if_pos he]
      · rw [if_neg he]
        rcases hdisj with hempty | hcase | ho | hd
        · exact absurd (by simp [hempty] : a.affectedRoutes.isEmpty = true) he
        · obtain ⟨c, hc, -⟩ := hcase
          exact absurd hc (by simp [hl])
        · simp only [strContains_iff, Bool.false_or, Bool.or_eq_true]
          tauto
        · simp only [strContains_iff, Bool.false_or, Bool.or_eq_true]
          tauto
  | some c0 =>
    simp only [hl]
    constructor
    · rintro ⟨-, hcond⟩
      by_cases he : a.affectedRoutes.isEmpty
      · exact Or.inl (by simpa using he)
      · rw [if_neg he] at hcond
        simp only [Bool.or_eq_true] at hcond
        rcases hcond with (hc | ho) | hd
        · exact Or.inr (Or.inl ⟨c0, rfl, (strContains_iff _ _).1 hc⟩)
        · exact Or.inr (Or.inr (Or.inl ((strContains_iff _ _).1 ho)))
        · exact Or.inr (Or.inr (Or.inr ((strContains_iff _ _).1 hd)))
    · intro hdisj
      refine ⟨ha, ?_⟩
      by_cases he : a.affectedRoutes.isEmpty
      · rw [if_pos he]
      · rw [if_neg he]
        rcases hdisj with hempty | hcase | ho | hd
        · exact absurd (by simp [hempty] : a.affectedRoutes.isEmpty = true) he
        · obtain ⟨c, hc, hcm⟩ := hcase
          have hcc : c0 = c := by simpa [hl] using hc
          subst hcc
          simp only [strContains_iff, Bool.or_eq_true]
          tauto
        · simp only [strContains_iff, Bool.or_eq_true]
          tauto
        · simp only [strContains_iff, Bool.or_eq_true]
          tauto

/-- Witness for C9 on concrete alerts: the system-wide alert and the
LW alert are included for Burlington → Union, the GT-only alert is not. -/
theorem alert_inclusion_witness :
    (demoAlertEmpty ∈ filterAlerts "BU" "UN" [demoAlert, demoAlertEmpty, demoAlertOther] ↔
      demoAlertEmpty.affectedRoutes = [] ∨
      (∃ c, getLineForRouteT LINE_DESTINATIONS "BU" "UN" = some c
          ∧ c ∈ demoAlertEmpty.affectedRoutes) ∨
      "BU" ∈ demoAlertEmpty.affectedRoutes ∨ "UN" ∈ demoAlertEmpty.affectedRoutes) ∧
    filterAlerts "BU" "UN" [demoAlert, demoAlertEmpty, demoAlertOther]
      = [demoAlert, demoAlertEmpty] := by
  refine ⟨?_, by decide⟩
  exact (alert_inclusion demoGetTime "0" "BU" "UN" (.error ()) (.error ()) []
    [demoAlert, demoAlertEmpty, demoAlertOther] demoAlertEmpty (by decide)).2

/-- C4 (corrected): on the demo line `[A, B, C, D, UN]` a UN-bound entry
is accepted for origin `B` and destination `D` and rejected for
destination `A`; in general, once the filter falls through to terminal
resolution, an entry is accepted iff the terminal resolves to a station of
the line and the destination's index lies strictly beyond the origin's
index toward the terminal (origin < destination ≤ terminal, or origin >
destination ≥ terminal) — with destination = origin the filter rejects,
although the claim's inclusive reading would accept (see the
counterexample). -/
theorem direction_filter_toward_terminal :
    isToward demoTopo demoNames "B" "D" demoDirEntry = true ∧
    isToward demoTopo demoNames "B" "A" demoDirEntry = false ∧
    (∀ (topo : List (String × List String)) (names : List (String × String))
        (origin destination L : String) (line : RealTimeLine)
        (lineStations : List String) (originIdx destIdx : Nat),
      getLineForRouteT topo origin destination = some L →
      L ≠ "" →
      trimStr (jsOr line.LineCode "") = L →
      containsStr (toLowerStr (trimStr (jsOr line.DirectionName "")))
        (toLowerStr (jsOr (lookupStr names destination) destination)) = false →
      (destination = "UN" →
        containsStr (toLowerStr (trimStr (jsOr line.DirectionName ""))) "union" = false) →
      terminalOf (trimStr (jsOr line.DirectionName "")) ≠ "" →
      lookupLine topo L = some lineStations →
      lineStations ≠ [] →
      lineStations.findIdx? (fun s => s == origin) = some originIdx →
      lineStations.findIdx? (fun s => s == destination) = some destIdx →
      isToward topo names origin destination line
        = (match resolveTerminalIdx names lineStations
              (toLowerStr (terminalOf (trimStr (jsOr line.DirectionName "")))) with
           | none => false
           | some terminalIdx =>
             (decide (originIdx < destIdx) && decide (destIdx ≤ terminalIdx)) ||
             (decide (originIdx > destIdx) && decide (destIdx ≥ terminalIdx)))) := by
  refine ⟨by decide, by decide, ?_⟩
  intro topo names origin destination L line lineStations originIdx destIdx
    hroute hL hcode hname hunion hterm hstations hne hoi hdi
  simp only [isToward, hroute, hcode]
  have hjs : jsOr (some L) "" = L := by simp [jsOr, truthyS, hL]
  rw [hjs]
  have h1 : (truthyS (some L) && (L != L)) = false := by simp
  rw [h1]
  simp only [Bool.false_eq_true, if_false]
  rw [hname]
  simp only [Bool.false_eq_true, if_false]
  have h3 : (containsStr (toLowerStr (trimStr (jsOr line.DirectionName ""))) "union"
      && (destination == "UN")) = false := by
    by_cases hUN : destination = "UN"
    · simp [hunion hUN]
    · simp [hUN]
  have h4 : ((destination == "UN")
      && containsStr (toLowerStr (trimStr (jsOr line.DirectionName ""))) "union") = false := by
    by_cases hUN : destination = "UN"
    · simp [hunion hUN]
    · simp [hUN]
  rw [h3]
  simp only [Bool.false_eq_true, if_false]
  rw [h4]
  simp only [Bool.false_eq_true, if_false]
  have h5 : (terminalOf (trimStr (jsOr line.DirectionName "")) == "") = false := by
    simpa using hterm
  rw [h5]
  simp only [Bool.false_eq_true, if_false]
  rw [hstations]
  simp only [Option.getD_some]
  have h7 : lineStations.isEmpty = false := by
    cases lineStations with
    | nil => exact absurd rfl hne
    | cons a l => rfl
  rw [h7]
  simp only [Bool.false_eq_true, if_false]
  rw [hoi, hdi]

/-- C4 counterexample: with origin = destination = `B` on the demo line,
the filter falls through to terminal resolution (no earlier check fires),
the terminal resolves to `UN` at index 4, and `B`'s index 1 lies between
the origin's index 1 and the terminal's index 4 inclusively, yet the
filter rejects the entry — the inclusive if-and-only-if of the claim
fails. -/
theorem direction_filter_rejects_origin_eq_destination :
    isToward demoTopo demoNames "B" "B" demoDirEntry = false ∧
    getLineForRouteT demoTopo "B" "B" = some "XX" ∧
    trimStr (jsOr demoDirEntry.LineCode "") = "XX" ∧
    containsStr (toLowerStr (trimStr (jsOr demoDirEntry.DirectionName "")))
      (toLowerStr (jsOr (lookupStr demoNames "B") "B")) = false ∧
    terminalOf (trimStr (jsOr demoDirEntry.DirectionName "")) ≠ "" ∧
    lookupLine demoTopo "XX" = some ["A", "B", "C", "D", "UN"] ∧
    (["A", "B", "C", "D", "UN"] : List String).findIdx? (fun s => s == "B") = some 1 ∧
    resolveTerminalIdx demoNames ["A", "B", "C", "D", "UN"]
      (toLowerStr (terminalOf (trimStr (jsOr demoDirEntry.DirectionName "")))) = some 4 ∧
    ((1 : Nat) ≤ 1 ∧ (1 : Nat) ≤ 4) := by
  exact ⟨by decide, by decide, by decide, by decide, by decide, by decide, by decide,
    by decide, by decide, by decide⟩

/-- Witness for C4's general clause at the concrete `B → D` query. -/
theorem direction_filter_toward_terminal_witness :
    isToward demoTopo demoNames "B" "D" demoDirEntry
      = (match resolveTerminalIdx demoNames ["A", "B", "C", "D", "UN"]
            (toLowerStr (terminalOf (trimStr (jsOr demoDirEntry.DirectionName "")))) with
         | none => false
         | some terminalIdx =>
           (decide ((1 : Nat) < 3) && decide (3 ≤ terminalIdx)) ||
           (decide ((1 : Nat) > 3) && decide (3 ≥ terminalIdx))) :=
  direction_filter_toward_terminal.2.2 demoTopo demoNames "B" "D" "XX" demoDirEntry
    ["A", "B", "C", "D", "UN"] 1 3 (by decide) (by decide) (by decide) (by decide)
    (fun h => by simp at h) (by decide) (by decide) (by decide) (by decide) (by decide)

/-- Witness for C7's corrected statement, on a journey containing a null
trip record followed by a numberless trip record. -/
theorem schedule_skips_only_null_trips_witness :
    scheduleDepartures [⟨[demoServiceMixed]⟩]
      = scheduleDepartures (stripNullTrips [⟨[demoServiceMixed]⟩]) ∧
    (scheduleDepartures [⟨[demoServiceMixed]⟩]).filter (fun d => d.tripNumber == some "")
      = [mkScheduled demoServiceMixed demoTripNoNumber] ∧
    (mkScheduled demoServiceMixed demoTripNoNumber).tripNumber = some "" := by
  have h := schedule_skips_only_null_trips [⟨[demoServiceMixed]⟩]
  refine ⟨h.1, ?_, h.2.2.2 demoServiceMixed demoTripNoNumber rfl⟩
  rw [h.2.1]
  have hf : (flatTrips [⟨[demoServiceMixed]⟩]).find? (fun p => jsOr p.2.Number "" == "")
      = some (demoServiceMixed, demoTripNoNumber) := by decide
  rw [hf]

end GoSchedule
